import Mathlib

/-!
Verification of the gpasswd encrypted-vault core against its specification.

The Go sources are shallowly embedded: bytes are `Nat` (reduced mod 256 or
mod 2^w where the code wraps), byte slices are `List Nat`, Go's nil/non-nil
slice distinction is `Option (List Nat)`, fallible functions return
`Except String` carrying the Go error message, and every source of
randomness or wall-clock time is made an explicit argument.

The AES-256 block function (Go `crypto/aes`, external to this repository)
is a parameter `E : List Nat → List Nat → List Nat` (key, then one 16-byte
block); GCM mode (Go `crypto/cipher.NewGCM`) is embedded concretely
following NIST SP 800-38D as the Go standard library implements it, so all
cipher-level theorems hold for every block function of the right shape.
-/

/-- Decidable equality for operation results, so concrete runs can be
checked by `decide`. -/
instance instDecEqExcept {e a : Type _} [DecidableEq e] [DecidableEq a] : DecidableEq (Except e a)
  | .error x, .error y =>
    if h : x = y then .isTrue (h ▸ rfl) else .isFalse (fun hc => h (by cases hc; rfl))
  | .ok x, .ok y =>
    if h : x = y then .isTrue (h ▸ rfl) else .isFalse (fun hc => h (by cases hc; rfl))
  | .error _, .ok _ => .isFalse (fun hc => by cases hc)
  | .ok _, .error _ => .isFalse (fun hc => by cases hc)

/-! ## internal/crypto/cipher.go -/

/-- DefaultNonceSize from cipher.go: the standard nonce size for GCM. -/
def DefaultNonceSize : Nat := 12

/-- minCiphertextSize from cipher.go: nonce (12 bytes) + GCM tag (16 bytes). -/
def minCiphertextSize : Nat := DefaultNonceSize + 16

/-- Big-endian integer value of a byte list. -/
def beNat (bs : List Nat) : Nat :=
  bs.foldl (fun acc b => acc * 256 + b) 0

/-- Big-endian encoding of `n` into exactly `w` bytes. -/
def beBytes (w n : Nat) : List Nat :=
  (List.range w).map (fun i => n / 256 ^ (w - 1 - i) % 256)

/-- inc32 of SP 800-38D: increment the last 32 bits of a block, used for the
GCM counter. -/
def inc32 (b : List Nat) : List Nat :=
  b.take 12 ++ beBytes 4 ((beNat (b.drop 12) + 1) % 2 ^ 32)

/-- The GHASH reduction constant R of SP 800-38D, as a 128-bit big-endian
integer. -/
def gfR : Nat := 0xE1000000000000000000000000000000

/-- Multiplication in GF(2^128) with GCM's reflected bit order, as the
standard right-shift algorithm over big-endian 128-bit integers. -/
def gfMul (x y : Nat) : Nat :=
  ((List.range 128).foldl (fun zv i =>
    let z := if x.testBit (127 - i) then zv.1 ^^^ zv.2 else zv.1
    let v := if zv.2 % 2 = 1 then zv.2 / 2 ^^^ gfR else zv.2 / 2
    (z, v)) ((0 : Nat), y)).1

/-- Pad a partial block with zero bytes up to the 16-byte block size. -/
def padBlock (b : List Nat) : List Nat :=
  b ++ List.replicate (16 - b.length) 0

/-- Fold of the GHASH compression over `n` 16-byte chunks of `xs`. -/
def ghashFold (h y : Nat) (xs : List Nat) : Nat → Nat
  | 0 => y
  | n + 1 => ghashFold h (gfMul (y ^^^ beNat (padBlock (xs.take 16))) h) (xs.drop 16) n

/-- GHASH of a block-aligned byte string under hash subkey `h`. -/
def ghash (h : Nat) (xs : List Nat) : Nat :=
  ghashFold h 0 xs ((xs.length + 15) / 16)

/-- The CTR keystream: `n` blocks starting from counter block `cb`. -/
def ctrKeystream (Ek : List Nat → List Nat) (cb : List Nat) : Nat → List Nat
  | 0 => []
  | n + 1 => Ek cb ++ ctrKeystream Ek (inc32 cb) n

/-- GCTR of SP 800-38D: XOR the message with the CTR keystream. -/
def gctr (Ek : List Nat → List Nat) (cb msg : List Nat) : List Nat :=
  List.zipWith Nat.xor msg (ctrKeystream Ek cb ((msg.length + 15) / 16))

/-- The pre-counter block J0 for a 12-byte nonce: nonce followed by
0x00000001. -/
def j0Block (nonce : List Nat) : List Nat :=
  nonce ++ [0, 0, 0, 1]

/-- GHASH of the ciphertext with empty associated data, as bytes: the input
is C padded to a block boundary followed by the 64-bit bit lengths of the
(empty) associated data and of C. -/
def ghashBytes (E : List Nat → List Nat → List Nat) (k c : List Nat) : List Nat :=
  let h := beNat (E k (List.replicate 16 0))
  let input := c ++ List.replicate ((16 - c.length % 16) % 16) 0
    ++ beBytes 8 0 ++ beBytes 8 (8 * c.length % 2 ^ 64)
  beBytes 16 (ghash h input)

/-- The 16-byte GCM authentication tag for ciphertext `c`. -/
def gcmTag (E : List Nat → List Nat → List Nat) (k nonce c : List Nat) : List Nat :=
  List.zipWith Nat.xor (E k (j0Block nonce)) (ghashBytes E k c)

/-- gcm.Seal with empty destination and associated data: CTR ciphertext
followed by the authentication tag. -/
def gcmSeal (E : List Nat → List Nat → List Nat) (k nonce p : List Nat) : List Nat :=
  let c := gctr (E k) (inc32 (j0Block nonce)) p
  c ++ gcmTag E k nonce c

/-- gcm.Open with empty destination and associated data: split off the
16-byte tag, verify it, and CTR-decrypt on success; `none` on any failure
(the Go implementation returns one fixed error for them all). -/
def gcmOpen (E : List Nat → List Nat → List Nat) (k nonce data : List Nat) :
    Option (List Nat) :=
  if data.length < 16 then none
  else
    let c := data.take (data.length - 16)
    let tag := data.drop (data.length - 16)
    if gcmTag E k nonce c = tag then some (gctr (E k) (inc32 (j0Block nonce)) c)
    else none

/-- GenerateNonce from cipher.go: 12 bytes drawn from the random source
(`rand i` is the i-th random byte; mod 256 keeps the byte range). -/
def GenerateNonce (rand : Nat → Nat) : List Nat :=
  (List.range DefaultNonceSize).map (fun i => rand i % 256)

/-- Encrypt from cipher.go. `E` stands for the AES-256 block function of
`crypto/aes` (external to this repository); the fresh random nonce drawn by
GenerateNonce is the explicit `nonce` argument. Output is the nonce
followed by gcm.Seal's ciphertext-plus-tag, exactly as
`gcm.Seal(nonce, nonce, plaintext, nil)` lays it out. -/
def Encrypt (E : List Nat → List Nat → List Nat)
    (plaintext key : Option (List Nat)) (nonce : List Nat) :
    Except String (List Nat) :=
  match plaintext with
  | none => .error "plaintext cannot be nil"
  | some p =>
    match key with
    | none => .error "key cannot be nil"
    | some k =>
      if k.length ≠ 32 then
        .error ("key must be 32 bytes for AES-256, got " ++ toString k.length)
      else
        .ok (nonce ++ gcmSeal E k nonce p)

/-- Decrypt from cipher.go: validates the inputs, splits off the 12-byte
nonce, and opens the remainder; a failed open yields the single fixed
wrong-key-or-tampered error message. -/
def Decrypt (E : List Nat → List Nat → List Nat)
    (ciphertext key : Option (List Nat)) : Except String (List Nat) :=
  match ciphertext with
  | none => .error "ciphertext cannot be nil"
  | some ct =>
    match key with
    | none => .error "key cannot be nil"
    | some k =>
      if k.length ≠ 32 then
        .error ("key must be 32 bytes for AES-256, got " ++ toString k.length)
      else if ct.length < minCiphertextSize then
        .error ("ciphertext too short: must be at least " ++ toString minCiphertextSize
          ++ " bytes (nonce + tag), got " ++ toString ct.length)
      else if ct.length < DefaultNonceSize then
        .error "ciphertext too short to contain nonce"
      else
        match gcmOpen E k (ct.take DefaultNonceSize) (ct.drop DefaultNonceSize) with
        | none => .error "decryption failed (wrong key or tampered data)"
        | some p => .ok p

/-- Length of an optional byte slice; a Go nil slice has length 0. -/
def optLen : Option (List Nat) → Nat
  | none => 0
  | some l => l.length

/-- Whether an operation result is an error. -/
def exceptIsError : Except String (List Nat) → Bool
  | .error _ => true
  | .ok _ => false

/-! ## Cipher lemmas -/

theorem ctrKeystream_length (Ek : List Nat → List Nat) (hE : ∀ b, (Ek b).length = 16) :
    ∀ (n : Nat) (cb : List Nat), (ctrKeystream Ek cb n).length = 16 * n
  | 0, _ => by simp [ctrKeystream]
  | n + 1, cb => by
    simp [ctrKeystream, hE, ctrKeystream_length Ek hE n]
    ring

theorem len_le_16_mul (len : Nat) : len ≤ 16 * ((len + 15) / 16) := by
  have h1 := Nat.div_add_mod (len + 15) 16
  have h2 : (len + 15) % 16 < 16 := Nat.mod_lt _ (by norm_num)
  omega

theorem gctr_length (Ek : List Nat → List Nat) (hE : ∀ b, (Ek b).length = 16)
    (cb msg : List Nat) : (gctr Ek cb msg).length = msg.length := by
  simp [gctr, List.length_zipWith, ctrKeystream_length Ek hE]
  omega

theorem zipWith_xor_cancel : ∀ (p ks : List Nat), p.length ≤ ks.length →
    List.zipWith Nat.xor (List.zipWith Nat.xor p ks) ks = p
  | [], _, _ => by simp
  | a :: p, [], h => by simp at h
  | a :: p, b :: ks, h => by
    simp only [List.zipWith]
    refine congrArg₂ (· :: ·) (Nat.xor_cancel_right b a) ?_
    exact zipWith_xor_cancel p ks (by simpa using h)

theorem gctr_gctr (Ek : List Nat → List Nat) (hE : ∀ b, (Ek b).length = 16)
    (cb p : List Nat) : gctr Ek cb (gctr Ek cb p) = p := by
  have hlen : (List.zipWith Nat.xor p (ctrKeystream Ek cb ((p.length + 15) / 16))).length
      = p.length := by
    simpa [gctr] using gctr_length Ek hE cb p
  simp only [gctr, hlen]
  refine zipWith_xor_cancel p _ ?_
  rw [ctrKeystream_length Ek hE]
  exact len_le_16_mul _

theorem ghashBytes_length (E : List Nat → List Nat → List Nat) (k c : List Nat) :
    (ghashBytes E k c).length = 16 := by
  simp [ghashBytes, beBytes]

theorem gcmTag_length (E : List Nat → List Nat → List Nat)
    (hE : ∀ k b, (E k b).length = 16) (k nonce c : List Nat) :
    (gcmTag E k nonce c).length = 16 := by
  simp [gcmTag, List.length_zipWith, hE, ghashBytes_length]

theorem gcmOpen_gcmSeal (E : List Nat → List Nat → List Nat)
    (hE : ∀ k b, (E k b).length = 16) (k nonce p : List Nat) :
    gcmOpen E k nonce (gcmSeal E k nonce p) = some p := by
  have hc : (gctr (E k) (inc32 (j0Block nonce)) p).length = p.length :=
    gctr_length (E k) (hE k) _ p
  have ht := gcmTag_length E hE k nonce (gctr (E k) (inc32 (j0Block nonce)) p)
  simp only [gcmOpen, gcmSeal]
  rw [if_neg (by simp [hc, ht])]
  have hsub : (gctr (E k) (inc32 (j0Block nonce)) p
      ++ gcmTag E k nonce (gctr (E k) (inc32 (j0Block nonce)) p)).length - 16
      = (gctr (E k) (inc32 (j0Block nonce)) p).length := by
    simp [hc, ht]
  rw [hsub, List.take_left, List.drop_left, if_pos rfl, gctr_gctr (E k) (hE k)]

theorem encrypt_ok (E : List Nat → List Nat → List Nat) (p k nonce : List Nat)
    (hk : k.length = 32) :
    Encrypt E (some p) (some k) nonce = .ok (nonce ++ gcmSeal E k nonce p) := by
  simp [Encrypt, hk]

theorem gcmSeal_length (E : List Nat → List Nat → List Nat)
    (hE : ∀ k b, (E k b).length = 16) (k nonce p : List Nat) :
    (gcmSeal E k nonce p).length = p.length + 16 := by
  simp [gcmSeal, gctr_length (E k) (hE k), gcmTag_length E hE]

/-- C1: for every plaintext P and every 32-byte key K, if Encrypt(P, K)
succeeds with ciphertext C, then Decrypt(C, K) succeeds and returns exactly
P. Stated for every block function yielding 16-byte blocks and every
12-byte nonce drawn by GenerateNonce. -/
theorem encrypt_decrypt_roundtrip (E : List Nat → List Nat → List Nat)
    (hE : ∀ k b, (E k b).length = 16) (p k nonce c : List Nat)
    (hk : k.length = 32) (hn : nonce.length = 12)
    (hc : Encrypt E (some p) (some k) nonce = .ok c) :
    Decrypt E (some c) (some k) = .ok p := by
  rw [encrypt_ok E p k nonce hk] at hc
  have hc' : c = nonce ++ gcmSeal E k nonce p := by
    cases hc
    rfl
  subst hc'
  have hlen : (nonce ++ gcmSeal E k nonce p).length = p.length + 28 := by
    simp [hn, gcmSeal_length E hE]
    omega
  simp only [Decrypt]
  rw [if_neg (by simp [hk]), if_neg (by simp [hlen, minCiphertextSize, DefaultNonceSize]),
    if_neg (by simp [hlen, DefaultNonceSize])]
  have htake : (nonce ++ gcmSeal E k nonce p).take DefaultNonceSize = nonce := by
    rw [show DefaultNonceSize = nonce.length from hn.symm]
    exact List.take_left nonce _
  have hdrop : (nonce ++ gcmSeal E k nonce p).drop DefaultNonceSize = gcmSeal E k nonce p := by
    rw [show DefaultNonceSize = nonce.length from hn.symm]
    exact List.drop_left nonce _
  rw [htake, hdrop, gcmOpen_gcmSeal E hE]

/-- A concrete block function used to instantiate the cipher theorems:
every block maps to the all-zero block, which has the required length. -/
def Ew : List Nat → List Nat → List Nat := fun _ _ => List.replicate 16 0

/-- The ciphertext produced by the concrete round-trip run. -/
def roundtripC1c : List Nat :=
  List.replicate 12 0 ++ gcmSeal Ew (List.replicate 32 0) (List.replicate 12 0) [1, 2, 3]

/-- Witness for C1: the round trip at a concrete plaintext, key and nonce. -/
theorem encrypt_decrypt_roundtrip_witness :
    Decrypt Ew (some roundtripC1c) (some (List.replicate 32 0)) = .ok [1, 2, 3] :=
  encrypt_decrypt_roundtrip Ew (fun _ _ => by simp [Ew]) [1, 2, 3]
    (List.replicate 32 0) (List.replicate 12 0) roundtripC1c (by simp) (by simp) rfl

/-- C2: two Encrypt calls on the same plaintext and key whose freshly drawn
12-byte nonces differ produce different ciphertexts, since the nonce is
prepended to the sealed output. -/
theorem encrypt_nonce_freshness (E : List Nat → List Nat → List Nat)
    (p k n1 n2 : List Nat) (hk : k.length = 32) (h12 : n1 ≠ n2)
    (hn1 : n1.length = 12) (hn2 : n2.length = 12) :
    Encrypt E (some p) (some k) n1 ≠ Encrypt E (some p) (some k) n2 := by
  rw [encrypt_ok E p k n1 hk, encrypt_ok E p k n2 hk]
  intro h
  apply h12
  have h' : n1 ++ gcmSeal E k n1 p = n2 ++ gcmSeal E k n2 p := by
    injection h
  have := congrArg (List.take 12) h'
  rwa [show (12 : Nat) = n1.length from hn1.symm, List.take_left,
    show n1.length = n2.length from by rw [hn1, hn2], List.take_left] at this

/-- Witness for C2: concrete distinct nonces give distinct ciphertexts. -/
theorem encrypt_nonce_freshness_witness :
    Encrypt Ew (some [5]) (some (List.replicate 32 0)) (List.replicate 12 0)
      ≠ Encrypt Ew (some [5]) (some (List.replicate 32 0)) (1 :: List.replicate 11 0) :=
  encrypt_nonce_freshness Ew [5] (List.replicate 32 0) (List.replicate 12 0)
    (1 :: List.replicate 11 0) (by simp) (by decide) (by simp) (by simp)

/-- C3: Decrypt returns an error whenever the ciphertext is shorter than 28
bytes (nonce + tag), whenever the key is not exactly 32 bytes, and whenever
the authentication tag does not verify; in the last case the error is one
fixed message, so a wrong key is not distinguishable from tampered data. -/
theorem decrypt_error_spec (E : List Nat → List Nat → List Nat) :
    (∀ ct k, optLen ct < minCiphertextSize → exceptIsError (Decrypt E ct k) = true)
    ∧ (∀ ct k, optLen k ≠ 32 → exceptIsError (Decrypt E ct k) = true)
    ∧ (∀ ct k, k.length = 32 → minCiphertextSize ≤ ct.length →
        gcmOpen E k (ct.take DefaultNonceSize) (ct.drop DefaultNonceSize) = none →
        Decrypt E (some ct) (some k)
          = .error "decryption failed (wrong key or tampered data)") := by
  refine ⟨?_, ?_, ?_⟩
  · intro ct k h
    match ct, k with
    | none, _ => rfl
    | some ct, none => rfl
    | some ct, some k =>
      simp only [optLen] at h
      by_cases hk : k.length = 32
      · simp [Decrypt, hk, h, exceptIsError]
      · simp [Decrypt, hk, exceptIsError]
  · intro ct k h
    match ct, k with
    | none, _ => rfl
    | some ct, none => rfl
    | some ct, some k =>
      simp only [optLen] at h
      simp [Decrypt, h, exceptIsError]
  · intro ct k hk hlen hopen
    simp only [Decrypt]
    rw [if_neg (by simp [hk]), if_neg (by omega),
      if_neg (by simp [minCiphertextSize, DefaultNonceSize] at hlen ⊢; omega), hopen]

/-- Witness for C3: a 27-byte ciphertext errors, a 31-byte key errors, and a
28-byte ciphertext whose tag does not verify yields exactly the fixed
wrong-key-or-tampered message. -/
theorem decrypt_error_spec_witness :
    exceptIsError (Decrypt Ew (some (List.replicate 27 0)) (some (List.replicate 32 0))) = true
    ∧ exceptIsError (Decrypt Ew (some (List.replicate 28 0)) (some (List.replicate 31 0))) = true
    ∧ Decrypt Ew (some (List.replicate 27 0 ++ [1])) (some (List.replicate 32 0))
      = .error "decryption failed (wrong key or tampered data)" :=
  ⟨(decrypt_error_spec Ew).1 (some (List.replicate 27 0)) (some (List.replicate 32 0))
      (by decide),
   (decrypt_error_spec Ew).2.1 (some (List.replicate 28 0)) (some (List.replicate 31 0))
      (by decide),
   (decrypt_error_spec Ew).2.2 (List.replicate 27 0 ++ [1]) (List.replicate 32 0)
      (by simp) (by decide) (by decide)⟩

/-- Counterexample to C4 as stated: a nil plaintext is rejected even with a
valid 32-byte key, so Encrypt does not fail only on bad keys. -/
theorem encrypt_nil_plaintext_fails :
    (List.replicate 32 0).length = 32
    ∧ Encrypt Ew none (some (List.replicate 32 0)) (List.replicate 12 0)
      = .error "plaintext cannot be nil" :=
  ⟨by simp, rfl⟩

/-- C4 (amended): for non-nil inputs, Encrypt fails only when the key is not
exactly 32 bytes; and for every 32-byte key, encrypting the empty
(zero-length, non-nil) plaintext succeeds. -/
theorem encrypt_fails_only_bad_key (E : List Nat → List Nat → List Nat) :
    (∀ p k nonce, exceptIsError (Encrypt E (some p) (some k) nonce) = true → k.length ≠ 32)
    ∧ (∀ k nonce, k.length = 32 →
        exceptIsError (Encrypt E (some []) (some k) nonce) = false) := by
  constructor
  · intro p k nonce h
    by_cases hk : k.length = 32
    · simp [Encrypt, hk, exceptIsError] at h
    · exact hk
  · intro k nonce hk
    simp [Encrypt, hk, exceptIsError]

/-- Witness for C4: a 31-byte key is the only failure cause on a non-nil
plaintext, and the empty plaintext encrypts under a 32-byte key. -/
theorem encrypt_fails_only_bad_key_witness :
    (List.replicate 31 0).length ≠ 32
    ∧ exceptIsError (Encrypt Ew (some []) (some (List.replicate 32 0))
        (List.replicate 12 0)) = false :=
  ⟨(encrypt_fails_only_bad_key Ew).1 [1] (List.replicate 31 0) (List.replicate 12 0)
      (by decide),
   (encrypt_fails_only_bad_key Ew).2 (List.replicate 32 0) (List.replicate 12 0) (by simp)⟩

/-! ## internal/crypto KDF (Argon2id) -/

/-- DefaultSaltLength from the KDF source: 32 bytes. -/
def DefaultSaltLength : Nat := 32

/-- MinSaltLength from the KDF source: minimum salt length for security. -/
def MinSaltLength : Nat := 8

/-- Argon2Params from the KDF source (Time, Memory in KB, Parallelism,
KeyLen in bytes). -/
structure Argon2Params where
  Time : Nat
  Memory : Nat
  Parallelism : Nat
  KeyLen : Nat

/-- DefaultArgon2Params from the KDF source. -/
def DefaultArgon2Params : Argon2Params :=
  { Time := 3, Memory := 64 * 1024, Parallelism := 4, KeyLen := 32 }

/-- Argon2Params.Validate from the KDF source: the first failing check
yields its error message, `none` means valid. -/
def Argon2Params.Validate (p : Argon2Params) : Option String :=
  if p.Time = 0 then some "time cost must be greater than 0"
  else if p.Memory = 0 then some "memory cost must be greater than 0"
  else if p.Parallelism = 0 then some "parallelism must be greater than 0"
  else if p.KeyLen = 0 then some "key length must be greater than 0"
  else if p.KeyLen < 16 then some "key length must be at least 16 bytes"
  else if p.Memory < 8 * 1024 then some "memory cost should be at least 8 MB (8192 KB)"
  else none

/-- Modelled from the spec: golang.org/x/crypto/argon2.IDKey is an external
library, not part of this repository. The spec requires only that the
derivation is deterministic in (password, salt, params) and produces a key
of params.KeyLen bytes, so it is modelled as a concrete deterministic byte
mix of those inputs with that output length. -/
def argon2IDKey (password : String) (salt : List Nat) (p : Argon2Params) : List Nat :=
  (List.range p.KeyLen).map (fun i =>
    (password.length + salt.foldl (· + ·) 0 + p.Time + p.Memory + p.Parallelism + i) % 256)

/-- DeriveKey from the KDF source: validates password, salt and parameters,
then derives via Argon2id. -/
def DeriveKey (password : String) (salt : Option (List Nat)) (p : Argon2Params) :
    Except String (List Nat) :=
  if password = "" then .error "password cannot be empty"
  else
    match salt with
    | none => .error "salt cannot be nil"
    | some s =>
      if s.length < MinSaltLength then
        .error ("salt must be at least " ++ toString MinSaltLength ++ " bytes, got "
          ++ toString s.length)
      else
        match Argon2Params.Validate p with
        | some e => .error ("invalid Argon2 parameters: " ++ e)
        | none => .ok (argon2IDKey password s p)

theorem validate_isSome_iff (p : Argon2Params) :
    (Argon2Params.Validate p).isSome = true ↔
      p.Time = 0 ∨ p.Memory = 0 ∨ p.Parallelism = 0 ∨ p.KeyLen = 0
        ∨ p.KeyLen < 16 ∨ p.Memory < 8 * 1024 := by
  unfold Argon2Params.Validate
  split_ifs <;> simp_all

theorem argon2IDKey_length (password : String) (salt : List Nat) (p : Argon2Params) :
    (argon2IDKey password salt p).length = p.KeyLen := by
  simp [argon2IDKey]

/-- C5: DeriveKey errors exactly when the password is empty, the salt (a
nil salt counting as zero-length) is shorter than 8 bytes, or the
parameters are invalid (a zero field, key length below 16 bytes, or memory
cost below 8192 KiB); on every other input it succeeds and the key has
params.KeyLen bytes. -/
theorem deriveKey_spec (password : String) (salt : Option (List Nat)) (p : Argon2Params) :
    (exceptIsError (DeriveKey password salt p) = true ↔
      password = "" ∨ optLen salt < MinSaltLength ∨ p.Time = 0 ∨ p.Memory = 0
        ∨ p.Parallelism = 0 ∨ p.KeyLen = 0 ∨ p.KeyLen < 16 ∨ p.Memory < 8 * 1024)
    ∧ (∀ k, DeriveKey password salt p = .ok k → k.length = p.KeyLen) := by
  constructor
  · by_cases hpw : password = ""
    · simp [DeriveKey, hpw, exceptIsError]
    · cases salt with
      | none => simp [DeriveKey, hpw, exceptIsError, optLen, MinSaltLength]
      | some s =>
        by_cases hs : s.length < MinSaltLength
        · simp [DeriveKey, hpw, hs, exceptIsError, optLen]
        · cases hv : Argon2Params.Validate p with
          | some e =>
            have hbad := (validate_isSome_iff p).mp (by rw [hv]; rfl)
            simp [DeriveKey, hpw, hs, hv, exceptIsError, optLen]
            tauto
          | none =>
            have hval := validate_isSome_iff p
            rw [hv] at hval
            simp only [Option.isSome_none, Bool.false_eq_true, false_iff] at hval
            push_neg at hval
            simp [DeriveKey, hpw, hs, hv, exceptIsError, optLen]
            omega
  · intro k hk
    by_cases hpw : password = ""
    · simp [DeriveKey, hpw] at hk
    · cases salt with
      | none => simp [DeriveKey, hpw] at hk
      | some s =>
        by_cases hs : s.length < MinSaltLength
        · simp [DeriveKey, hpw, hs] at hk
        · cases hv : Argon2Params.Validate p with
          | some e => simp [DeriveKey, hpw, hs, hv] at hk
          | none =>
            simp [DeriveKey, hpw, hs, hv] at hk
            rw [← hk]
            exact argon2IDKey_length password s p

/-- The concrete key derived in the C5 witness run. -/
def deriveKeyW : List Nat := argon2IDKey "pw" (List.replicate 32 0) DefaultArgon2Params

/-- Witness for C5: an empty password errors, and a valid derivation
returns a key of the requested 32 bytes. -/
theorem deriveKey_spec_witness :
    exceptIsError (DeriveKey "" (some (List.replicate 32 0)) DefaultArgon2Params) = true
    ∧ deriveKeyW.length = DefaultArgon2Params.KeyLen :=
  ⟨(deriveKey_spec "" (some (List.replicate 32 0)) DefaultArgon2Params).1.mpr (Or.inl rfl),
   (deriveKey_spec "pw" (some (List.replicate 32 0)) DefaultArgon2Params).2 deriveKeyW
     (by decide)⟩

/-! ## internal/crypto password generator -/

/-- Character sets from the generator source; the first three exclude the
visually ambiguous glyphs. -/
def uppercaseChars : List Char := "ABCDEFGHJKLMNPQRSTUVWXYZ".toList

/-- Lowercase charset excluding the ambiguous letter l. -/
def lowercaseChars : List Char := "abcdefghijkmnopqrstuvwxyz".toList

/-- Digit charset excluding the ambiguous digits 0 and 1. -/
def digitChars : List Char := "23456789".toList

/-- Symbol charset from the generator source. -/
def symbolChars : List Char := "!@#$%^&*()-_=+[]\x7b\x7d|;:,.<>?".toList

/-- Full uppercase charset including ambiguous glyphs. -/
def uppercaseCharsAmbiguous : List Char := "ABCDEFGHIJKLMNOPQRSTUVWXYZ".toList

/-- Full lowercase charset including ambiguous glyphs. -/
def lowercaseCharsAmbiguous : List Char := "abcdefghijklmnopqrstuvwxyz".toList

/-- Full digit charset including ambiguous glyphs. -/
def digitCharsAmbiguous : List Char := "0123456789".toList

/-- MinPasswordLength from the generator source. -/
def MinPasswordLength : Nat := 4

/-- MaxPasswordLength from the generator source. -/
def MaxPasswordLength : Nat := 128

/-- maxRetries from generateWithRetries. -/
def maxRetries : Nat := 10

/-- GenerateOptions from the generator source. -/
structure GenerateOptions where
  UseUppercase : Bool
  UseLowercase : Bool
  UseDigits : Bool
  UseSymbols : Bool
  ExcludeAmbiguous : Bool

/-- containsAny from the generator source: does `s` contain any character
of `charset`. -/
def containsAny (s charset : List Char) : Bool :=
  charset.any (fun c => s.contains c)

/-- buildCharset from the generator source: concatenation of the enabled
classes, honoring ExcludeAmbiguous. -/
def buildCharset (o : GenerateOptions) : List Char :=
  (if o.UseUppercase then (if o.ExcludeAmbiguous then uppercaseChars
    else uppercaseCharsAmbiguous) else [])
  ++ (if o.UseLowercase then (if o.ExcludeAmbiguous then lowercaseChars
    else lowercaseCharsAmbiguous) else [])
  ++ (if o.UseDigits then (if o.ExcludeAmbiguous then digitChars
    else digitCharsAmbiguous) else [])
  ++ (if o.UseSymbols then symbolChars else [])

/-- meetsRequirements from the generator source: every enabled class must
be represented (checked against the full ambiguous-inclusive sets). -/
def meetsRequirements (password : List Char) (o : GenerateOptions) : Bool :=
  if o.UseUppercase && !(containsAny password uppercaseCharsAmbiguous) then false
  else if o.UseLowercase && !(containsAny password lowercaseCharsAmbiguous) then false
  else if o.UseDigits && !(containsAny password digitCharsAmbiguous) then false
  else if o.UseSymbols && !(containsAny password symbolChars) then false
  else true

/-- First character of a charset, as the source's charset[0]. -/
def headChar (l : List Char) : Char := l.headD ' '

/-- forceRequirements from the generator source: walk the classes in order
(uppercase, lowercase, digits, symbols); any class still missing from the
current password gets its representative written at the next patch index. -/
def forceRequirements (password : List Char) (o : GenerateOptions) : List Char :=
  let step1 :=
    if o.UseUppercase && !(containsAny password uppercaseCharsAmbiguous) then
      (password.set 0 (if o.ExcludeAmbiguous then headChar uppercaseChars
        else headChar uppercaseCharsAmbiguous), 1)
    else (password, 0)
  let p1 := step1.1
  let i1 := step1.2
  let step2 :=
    if o.UseLowercase && !(containsAny p1 lowercaseCharsAmbiguous) then
      (p1.set i1 (if o.ExcludeAmbiguous then headChar lowercaseChars
        else headChar lowercaseCharsAmbiguous), i1 + 1)
    else (p1, i1)
  let p2 := step2.1
  let i2 := step2.2
  let step3 :=
    if o.UseDigits && !(containsAny p2 digitCharsAmbiguous) then
      (p2.set i2 (if o.ExcludeAmbiguous then headChar digitChars
        else headChar digitCharsAmbiguous), i2 + 1)
    else (p2, i2)
  let p3 := step3.1
  let i3 := step3.2
  if o.UseSymbols && !(containsAny p3 symbolChars) then p3.set i3 (headChar symbolChars)
  else p3

/-- One attempt's random draw: position i of attempt starting at draw index
`start` takes charset[stream(start+i) mod charset length], modelling
rand.Int(rand.Reader, charsetLen). -/
def drawPassword (stream : Nat → Nat) (start : Nat) (charset : List Char)
    (length : Nat) : List Char :=
  (List.range length).map (fun i => charset.getD (stream (start + i) % charset.length) ' ')

/-- One attempt's drawn candidate: attempt number `retryCount` draws from
the combined charset at stream indices retryCount*length and following. -/
def attemptPassword (stream : Nat → Nat) (length : Nat) (o : GenerateOptions)
    (retryCount : Nat) : List Char :=
  drawPassword stream (retryCount * length) (buildCharset o) length

/-- generateWithRetries from the generator source. The source recurses with
retryCount counting up from 0 to maxRetries; here the structurally
decreasing argument is `remaining = maxRetries - retryCount`, so the base
case (remaining 0, i.e. retryCount = maxRetries) is the forced patch and
each other level retries on a failed coverage check, re-running the same
length and charset validation the source re-runs on every call. -/
def generateWithRetries (stream : Nat → Nat) (length : Nat) (o : GenerateOptions) :
    Nat → Except String (List Char)
  | 0 =>
    if length < MinPasswordLength then
      .error ("password length must be at least " ++ toString MinPasswordLength)
    else if length > MaxPasswordLength then
      .error ("password length must not exceed " ++ toString MaxPasswordLength)
    else if (buildCharset o).isEmpty then
      .error "at least one character type must be enabled"
    else
      let password := attemptPassword stream length o maxRetries
      if !(meetsRequirements password o) then .ok (forceRequirements password o)
      else .ok password
  | r + 1 =>
    if length < MinPasswordLength then
      .error ("password length must be at least " ++ toString MinPasswordLength)
    else if length > MaxPasswordLength then
      .error ("password length must not exceed " ++ toString MaxPasswordLength)
    else if (buildCharset o).isEmpty then
      .error "at least one character type must be enabled"
    else
      let password := attemptPassword stream length o (maxRetries - (r + 1))
      if !(meetsRequirements password o) then generateWithRetries stream length o r
      else .ok password

/-- Generate from the generator source: start with the full retry budget
(retryCount 0). -/
def Generate (stream : Nat → Nat) (length : Nat) (o : GenerateOptions) :
    Except String (List Char) :=
  generateWithRetries stream length o maxRetries

/-- All four classes enabled, ambiguous glyphs kept. -/
def allOpts : GenerateOptions :=
  { UseUppercase := true, UseLowercase := true, UseDigits := true,
    UseSymbols := true, ExcludeAmbiguous := false }

/-- A random source under which every attempt draws "A$$$": index 0 is 'A',
index 65 is '$' in the 88-character combined charset. -/
def streamW : Nat → Nat := fun n => if n % 4 = 0 then 0 else 65

/-- C6 fails on the code: with all four classes enabled and a random source
that yields "A$$$" on every attempt, the retries exhaust and
forceRequirements patches position 0 (holding the only uppercase letter)
with 'a' without rechecking uppercase, so Generate returns "a0$$" with no
uppercase character even though uppercase is enabled. -/
theorem generate_coverage_bug :
    Generate streamW 4 allOpts = .ok ['a', '0', '$', '$']
    ∧ containsAny ['a', '0', '$', '$'] uppercaseCharsAmbiguous = false
    ∧ meetsRequirements ['a', '0', '$', '$'] allOpts = false := by decide

/-! ## internal/models and internal/storage -/

/-- models.Entry: a password entry in the vault; timestamps are modelled as
abstract clock readings (Nat). -/
structure Entry where
  ID : String
  Name : String
  Category : String
  Username : String
  Password : String
  URL : String
  Notes : String
  Tags : List String
  CreatedAt : Nat
  UpdatedAt : Nat
deriving DecidableEq

/-- Entry.SearchText from models/entry.go: name, category, then each tag,
space-separated. -/
def SearchText (e : Entry) : String :=
  e.Tags.foldl (fun acc tag => acc ++ " " ++ tag) (e.Name ++ " " ++ e.Category)

/-- EntryData from storage/entry.go: the sensitive fields serialized into
the encrypted payload blob. -/
structure EntryData where
  Username : String
  Password : String
  URL : String
  Notes : String
  Tags : List String

/-- UTF-8-agnostic byte view of a string (code points as numbers). -/
def strBytes (s : String) : List Nat := s.toList.map Char.toNat

/-- Modelled from the spec: encoding/json.Marshal is an external library;
the payload blob is modelled as a deterministic byte serialization of the
five EntryData fields. -/
def encodeEntryData (d : EntryData) : List Nat :=
  strBytes d.Username ++ [0] ++ strBytes d.Password ++ [0] ++ strBytes d.URL ++ [0]
    ++ strBytes d.Notes ++ [0] ++ d.Tags.foldl (fun acc t => acc ++ strBytes t ++ [0]) []

/-- One row of the entries table of storage/db.go's schema (id primary key,
name unique, category, the two blobs, timestamps, the two nonces). -/
structure EntryRow where
  id : String
  name : String
  category : String
  encryptedData : List Nat
  encryptedSearch : List Nat
  createdAt : Nat
  updatedAt : Nat
  encryptionNonce : List Nat
  searchNonce : List Nat
deriving DecidableEq

/-- The Go check `key == nil || len(key) != 32` from storage/entry.go. -/
def keyOk : Option (List Nat) → Bool
  | none => false
  | some k => k.length == 32

/-- The entry mutations CreateEntry performs before encrypting: assign the
freshly drawn id only when the caller left the id empty, set both
timestamps to now, and default an empty category to "general". -/
def prepareCreateEntry (entry0 : Entry) (freshId : String) (now : Nat) : Entry :=
  let e1 := if entry0.ID = "" then { entry0 with ID := freshId } else entry0
  let e2 := { e1 with CreatedAt := now, UpdatedAt := now }
  if e2.Category = "" then { e2 with Category := "general" } else e2

/-- CreateEntry from storage/entry.go. The database is the list of rows;
`freshId` is the UUID drawn by uuid.New, `now` the time.Now reading, and
`n1`, `n2` the fresh nonces of the two Encrypt calls. Returns the new table
and the (mutated) entry. -/
def CreateEntry (E : List Nat → List Nat → List Nat) (db : List EntryRow)
    (entry? : Option Entry) (key : Option (List Nat)) (freshId : String)
    (now : Nat) (n1 n2 : List Nat) : Except String (List EntryRow × Entry) :=
  match entry? with
  | none => .error "entry cannot be nil"
  | some entry0 =>
    if entry0.Name = "" then .error "entry name cannot be empty"
    else if entry0.Password = "" then .error "entry password cannot be empty"
    else if !(keyOk key) then .error "encryption key must be 32 bytes"
    else
      let e3 := prepareCreateEntry entry0 freshId now
      let data : EntryData :=
        { Username := e3.Username, Password := e3.Password, URL := e3.URL,
          Notes := e3.Notes, Tags := e3.Tags }
      match Encrypt E (some (encodeEntryData data)) key n1 with
      | .error msg => .error ("failed to encrypt entry data: " ++ msg)
      | .ok encData =>
        let searchText := SearchText e3 ++ " " ++ e3.Username ++ " " ++ e3.URL
        match Encrypt E (some (strBytes searchText)) key n2 with
        | .error msg => .error ("failed to encrypt search text: " ++ msg)
        | .ok encSearch =>
          if db.any (fun r => r.id == e3.ID || r.name == e3.Name) then
            .error "failed to insert entry: UNIQUE constraint failed"
          else
            let row : EntryRow :=
              { id := e3.ID, name := e3.Name, category := e3.Category,
                encryptedData := encData, encryptedSearch := encSearch,
                createdAt := now, updatedAt := now,
                encryptionNonce := encData.take 12,
                searchNonce := encSearch.take 12 }
            .ok (db ++ [row], e3)

/-- The entry mutations UpdateEntry performs before encrypting: refresh the
updated timestamp and default an empty category to "general". -/
def prepareUpdateEntry (entry0 : Entry) (now : Nat) : Entry :=
  let e1 := { entry0 with UpdatedAt := now }
  if e1.Category = "" then { e1 with Category := "general" } else e1

/-- UpdateEntry from storage/entry.go: validates, re-encrypts both blobs
with fresh nonces, updates the matching row in place (the schema's
AFTER UPDATE trigger also pins updated_at to the current time), and errors
when no row was affected. -/
def UpdateEntry (E : List Nat → List Nat → List Nat) (db : List EntryRow)
    (entry? : Option Entry) (key : Option (List Nat)) (now : Nat)
    (n1 n2 : List Nat) : Except String (List EntryRow × Entry) :=
  match entry? with
  | none => .error "entry cannot be nil"
  | some entry0 =>
    if entry0.ID = "" then .error "entry ID cannot be empty"
    else if entry0.Name = "" then .error "entry name cannot be empty"
    else if entry0.Password = "" then .error "entry password cannot be empty"
    else if !(keyOk key) then .error "encryption key must be 32 bytes"
    else
      let e2 := prepareUpdateEntry entry0 now
      let data : EntryData :=
        { Username := e2.Username, Password := e2.Password, URL := e2.URL,
          Notes := e2.Notes, Tags := e2.Tags }
      match Encrypt E (some (encodeEntryData data)) key n1 with
      | .error msg => .error ("failed to encrypt entry data: " ++ msg)
      | .ok encData =>
        let searchText := SearchText e2 ++ " " ++ e2.Username ++ " " ++ e2.URL
        match Encrypt E (some (strBytes searchText)) key n2 with
        | .error msg => .error ("failed to encrypt search text: " ++ msg)
        | .ok encSearch =>
          let upd : EntryRow → EntryRow := fun r =>
            if r.id == e2.ID then
              { r with
                name := e2.Name,
                category := e2.Category,
                encryptedData := encData,
                encryptedSearch := encSearch,
                updatedAt := now,
                encryptionNonce := encData.take 12,
                searchNonce := encSearch.take 12 }
            else r
          if db.any (fun r => r.id == e2.ID) then .ok (db.map upd, e2)
          else .error ("entry with ID " ++ entry0.ID ++ " not found")

/-- Byte-wise (memcmp) string order, the order SQLite's ORDER BY name ASC
uses for TEXT. -/
def memcmpLe : List Char → List Char → Bool
  | [], _ => true
  | _ :: _, [] => false
  | a :: as, b :: bs =>
    if a.toNat < b.toNat then true
    else if b.toNat < a.toNat then false
    else memcmpLe as bs

/-- Row order by name, as ORDER BY name ASC. -/
def rowLe (a b : EntryRow) : Prop := memcmpLe a.name.toList b.name.toList = true

instance : DecidableRel rowLe := fun a b =>
  inferInstanceAs (Decidable (memcmpLe a.name.toList b.name.toList = true))

/-- ListEntries from storage/entry.go: selects id, name, category and the
timestamps only, ordered by name ascending; the decrypted payload fields of
each returned Entry stay at their zero values. No key is taken. -/
def ListEntries (db : List EntryRow) : List Entry :=
  (List.insertionSort rowLe db).map (fun r =>
    { ID := r.id, Name := r.name, Category := r.category, Username := "",
      Password := "", URL := "", Notes := "", Tags := [],
      CreatedAt := r.createdAt, UpdatedAt := r.updatedAt })

/-! ## List ordering lemmas and claim C9 -/

theorem memcmpLe_total : ∀ a b : List Char, memcmpLe a b = true ∨ memcmpLe b a = true
  | [], _ => Or.inl rfl
  | _ :: _, [] => Or.inr rfl
  | a :: as, b :: bs => by
    by_cases h1 : a.toNat < b.toNat
    · left
      simp [memcmpLe, h1]
    · by_cases h2 : b.toNat < a.toNat
      · right
        simp [memcmpLe, h2]
      · rcases memcmpLe_total as bs with h | h
        · left
          simp [memcmpLe, h1, h2, h]
        · right
          simp [memcmpLe, h1, h2, h]

theorem memcmpLe_trans : ∀ a b c : List Char,
    memcmpLe a b = true → memcmpLe b c = true → memcmpLe a c = true
  | [], _, _, _, _ => rfl
  | x :: xs, [], _, h1, _ => by simp [memcmpLe] at h1
  | x :: xs, y :: ys, [], _, h2 => by simp [memcmpLe] at h2
  | x :: xs, y :: ys, z :: zs, h1, h2 => by
    simp only [memcmpLe] at h1 h2 ⊢
    split_ifs at h1 h2 ⊢ <;>
      first
        | rfl
        | omega
        | exact memcmpLe_trans xs ys zs h1 h2

instance : IsTotal EntryRow rowLe :=
  ⟨fun a b => memcmpLe_total a.name.toList b.name.toList⟩

instance : IsTrans EntryRow rowLe :=
  ⟨fun _ _ _ h1 h2 => memcmpLe_trans _ _ _ h1 h2⟩

/-- C9: ListEntries takes no key (its type takes only the table), returns
the stored records in ascending byte order of name — so repeated listings
of an unchanged table are equal by determinism — and every returned entry
has an empty password and no other decrypted payload field populated. -/
theorem listEntries_spec (db : List EntryRow) :
    (ListEntries db).Pairwise (fun a b => memcmpLe a.Name.toList b.Name.toList = true)
    ∧ ((ListEntries db).map (fun e => e.ID)).Perm (db.map (fun r => r.id))
    ∧ (∀ e ∈ ListEntries db, e.Password = "" ∧ e.Username = "" ∧ e.URL = ""
        ∧ e.Notes = "" ∧ e.Tags = ([] : List String)) := by
  refine ⟨?_, ?_, ?_⟩
  · have hs : List.Sorted rowLe (List.insertionSort rowLe db) :=
      List.sorted_insertionSort rowLe db
    exact List.Pairwise.map _ (fun a b hab => hab) hs
  · rw [ListEntries, List.map_map]
    exact (List.perm_insertionSort rowLe db).map _
  · intro e he
    rcases List.mem_map.mp he with ⟨r, _, rfl⟩
    exact ⟨rfl, rfl, rfl, rfl, rfl⟩

/-- A concrete stored row for the C9 witness. -/
def rowC9 : EntryRow :=
  { id := "i1", name := "acme", category := "general", encryptedData := [1],
    encryptedSearch := [2], createdAt := 1, updatedAt := 1,
    encryptionNonce := [], searchNonce := [] }

/-- The entry ListEntries returns for rowC9. -/
def entryC9 : Entry :=
  { ID := "i1", Name := "acme", Category := "general", Username := "", Password := "",
    URL := "", Notes := "", Tags := [], CreatedAt := 1, UpdatedAt := 1 }

/-- Witness for C9: the listing of a one-row table hides every sensitive
field of its entry. -/
theorem listEntries_spec_witness :
    entryC9.Password = "" ∧ entryC9.Username = "" ∧ entryC9.URL = ""
      ∧ entryC9.Notes = "" ∧ entryC9.Tags = ([] : List String) :=
  (listEntries_spec [rowC9]).2.2 entryC9 (by decide)

/-! ## Record-store lemmas and claims C7, C8, C10 -/

theorem prepareCreateEntry_fields (entry : Entry) (freshId : String) (now : Nat) :
    (prepareCreateEntry entry freshId now).ID
      = (if entry.ID = "" then freshId else entry.ID)
    ∧ (prepareCreateEntry entry freshId now).CreatedAt = now
    ∧ (prepareCreateEntry entry freshId now).UpdatedAt = now
    ∧ (prepareCreateEntry entry freshId now).Category
      = (if entry.Category = "" then "general" else entry.Category) := by
  unfold prepareCreateEntry
  by_cases hid : entry.ID = "" <;> by_cases hcat : entry.Category = "" <;>
    simp [hid, hcat]

theorem prepareUpdateEntry_fields (entry : Entry) (now : Nat) :
    (prepareUpdateEntry entry now).ID = entry.ID
    ∧ (prepareUpdateEntry entry now).Name = entry.Name
    ∧ (prepareUpdateEntry entry now).CreatedAt = entry.CreatedAt
    ∧ (prepareUpdateEntry entry now).UpdatedAt = now
    ∧ (prepareUpdateEntry entry now).Category
      = (if entry.Category = "" then "general" else entry.Category) := by
  unfold prepareUpdateEntry
  by_cases hcat : entry.Category = "" <;> simp [hcat]

theorem createEntry_ok_shape (E : List Nat → List Nat → List Nat) (db : List EntryRow)
    (entry : Entry) (key : Option (List Nat)) (freshId : String) (now : Nat)
    (n1 n2 : List Nat) (db' : List EntryRow) (e' : Entry)
    (h : CreateEntry E db (some entry) key freshId now n1 n2 = .ok (db', e')) :
    e' = prepareCreateEntry entry freshId now
    ∧ db'.map (fun r => (r.id, r.category, r.createdAt, r.updatedAt))
      = db.map (fun r => (r.id, r.category, r.createdAt, r.updatedAt))
        ++ [(e'.ID, e'.Category, now, now)] := by
  simp only [CreateEntry] at h
  split_ifs at h <;> try cases h
  all_goals try (split at h <;> try cases h)
  all_goals try (split at h <;> try cases h)
  all_goals exact ⟨rfl, by simp⟩

theorem updateEntry_ok_shape (E : List Nat → List Nat → List Nat) (db : List EntryRow)
    (entry : Entry) (key : Option (List Nat)) (now : Nat) (n1 n2 : List Nat)
    (db' : List EntryRow) (e' : Entry)
    (h : UpdateEntry E db (some entry) key now n1 n2 = .ok (db', e')) :
    e' = prepareUpdateEntry entry now
    ∧ db'.map (fun r => (r.id, r.createdAt)) = db.map (fun r => (r.id, r.createdAt))
    ∧ (∀ r' ∈ db', r'.id = entry.ID → r'.updatedAt = now ∧ r'.category = e'.Category)
    ∧ (∀ r' ∈ db', r'.id ≠ entry.ID → r' ∈ db) := by
  have hprep := (prepareUpdateEntry_fields entry now).1
  simp only [UpdateEntry] at h
  split_ifs at h <;> try cases h
  all_goals try (split at h <;> try cases h)
  all_goals try (split at h <;> try cases h)
  refine ⟨rfl, ?_, ?_, ?_⟩
  · rw [List.map_map]
    apply List.map_congr_left
    intro r _
    by_cases hr : r.id == (prepareUpdateEntry entry now).ID <;>
      simp [Function.comp, hr]
  · intro r' hr' hid
    rcases List.mem_map.mp hr' with ⟨r, hr, rfl⟩
    by_cases hreq : r.id == (prepareUpdateEntry entry now).ID
    · simp [hreq]
    · rw [if_neg hreq] at hid
      exfalso
      apply hreq
      rw [hprep, beq_iff_eq]
      exact hid
  · intro r' hr' hid
    rcases List.mem_map.mp hr' with ⟨r, hr, rfl⟩
    by_cases hreq : r.id == (prepareUpdateEntry entry now).ID
    · exfalso
      apply hid
      rw [if_pos hreq]
      rw [beq_iff_eq, hprep] at hreq
      simpa using hreq
    · rw [if_neg hreq]
      exact hr

theorem updateEntry_notfound (E : List Nat → List Nat → List Nat) (db : List EntryRow)
    (entry : Entry) (key : Option (List Nat)) (now : Nat) (n1 n2 : List Nat)
    (hid : entry.ID ≠ "") (hname : entry.Name ≠ "") (hpass : entry.Password ≠ "")
    (hkey : keyOk key = true) (hnone : ∀ r ∈ db, r.id ≠ entry.ID) :
    UpdateEntry E db (some entry) key now n1 n2
      = .error ("entry with ID " ++ entry.ID ++ " not found") := by
  obtain ⟨k, rfl, hk32⟩ : ∃ k, key = some k ∧ k.length = 32 := by
    cases key with
    | none => simp [keyOk] at hkey
    | some k => exact ⟨k, rfl, by simpa [keyOk] using hkey⟩
  have hany : (db.any fun r => r.id == (prepareUpdateEntry entry now).ID) = false := by
    rw [List.any_eq_false]
    intro r hr
    simp [beq_iff_eq, (prepareUpdateEntry_fields entry now).1]
    exact hnone r hr
  simp only [UpdateEntry]
  rw [if_neg hid, if_neg hname, if_neg hpass, if_neg (by simp [keyOk, hk32]),
    encrypt_ok E _ k _ hk32]
  simp only []
  rw [encrypt_ok E _ k _ hk32]
  simp only [hany]
  rfl

/-- An entry whose caller-supplied id is non-empty, for C7. -/
def entryC7 : Entry :=
  { ID := "caller-id", Name := "gh", Category := "", Username := "u", Password := "s",
    URL := "", Notes := "", Tags := [], CreatedAt := 0, UpdatedAt := 0 }

set_option maxRecDepth 40000 in
/-- Counterexample to C7 as stated: CreateEntry only generates a new id
when the caller's id is empty; a caller-supplied id "caller-id" is
persisted unchanged instead of the freshly generated "fresh-uuid". -/
theorem createEntry_keeps_caller_id :
    (CreateEntry Ew [] (some entryC7) (some (List.replicate 32 0)) "fresh-uuid" 7
        (List.replicate 12 0) (List.replicate 12 1)).map
      (fun res => (res.2.ID, res.1.map (fun r => r.id)))
      = .ok ("caller-id", ["caller-id"])
    ∧ "caller-id" ≠ "fresh-uuid" := by decide

/-- C7 (amended): on success the persisted record carries the freshly
generated id when the caller supplied an empty id (a caller-supplied
non-empty id is kept), and both its created and updated timestamps are set
to the creation time. -/
theorem createEntry_id_timestamps (E : List Nat → List Nat → List Nat)
    (db : List EntryRow) (entry : Entry) (key : Option (List Nat)) (freshId : String)
    (now : Nat) (n1 n2 : List Nat) (db' : List EntryRow) (e' : Entry)
    (h : CreateEntry E db (some entry) key freshId now n1 n2 = .ok (db', e')) :
    e'.ID = (if entry.ID = "" then freshId else entry.ID)
    ∧ e'.CreatedAt = now ∧ e'.UpdatedAt = now
    ∧ db'.map (fun r => (r.id, r.category, r.createdAt, r.updatedAt))
      = db.map (fun r => (r.id, r.category, r.createdAt, r.updatedAt))
        ++ [(e'.ID, e'.Category, now, now)] := by
  obtain ⟨he, hdb⟩ := createEntry_ok_shape E db entry key freshId now n1 n2 db' e' h
  subst he
  obtain ⟨h1, h2, h3, _⟩ := prepareCreateEntry_fields entry freshId now
  exact ⟨h1, h2, h3, hdb⟩

/-- An entry with an empty caller id, for the C7 witness. -/
def entryC7b : Entry :=
  { ID := "", Name := "gh", Category := "dev", Username := "u", Password := "s",
    URL := "", Notes := "", Tags := [], CreatedAt := 0, UpdatedAt := 0 }

/-- The concrete C7 witness run. -/
def resC7 : Except String (List EntryRow × Entry) :=
  CreateEntry Ew [] (some entryC7b) (some (List.replicate 32 0)) "fresh-uuid" 7
    (List.replicate 12 0) (List.replicate 12 1)

/-- The table produced by the C7 witness run. -/
def dbC7 : List EntryRow :=
  match resC7 with
  | .ok (d, _) => d
  | .error _ => []

/-- The entry returned by the C7 witness run. -/
def entC7 : Entry :=
  match resC7 with
  | .ok (_, e) => e
  | .error _ => entryC7b

set_option maxRecDepth 40000 in
/-- Witness for C7 (amended): the concrete create assigns the fresh id and
both timestamps. -/
theorem createEntry_id_timestamps_witness :
    entC7.ID = (if entryC7b.ID = "" then "fresh-uuid" else entryC7b.ID)
    ∧ entC7.CreatedAt = 7 ∧ entC7.UpdatedAt = 7
    ∧ dbC7.map (fun r => (r.id, r.category, r.createdAt, r.updatedAt))
      = ([] : List EntryRow).map (fun r => (r.id, r.category, r.createdAt, r.updatedAt))
        ++ [(entC7.ID, entC7.Category, 7, 7)] :=
  createEntry_id_timestamps Ew [] entryC7b (some (List.replicate 32 0)) "fresh-uuid" 7
    (List.replicate 12 0) (List.replicate 12 1) dbC7 entC7 (by decide)

/-- C8: a successful UpdateEntry keeps the returned entry's created
timestamp and every row's created timestamp unchanged, sets the matching
row's updated timestamp to now (hence strictly later than any pre-update
reading below now), and UpdateEntry fails with the not-found error when no
row has the given id (given inputs passing the validation that precedes the
lookup). -/
theorem updateEntry_spec (E : List Nat → List Nat → List Nat) (db : List EntryRow)
    (entry : Entry) (key : Option (List Nat)) (now : Nat) (n1 n2 : List Nat) :
    (∀ db' e', UpdateEntry E db (some entry) key now n1 n2 = .ok (db', e') →
      e'.CreatedAt = entry.CreatedAt
      ∧ db'.map (fun r => (r.id, r.createdAt)) = db.map (fun r => (r.id, r.createdAt))
      ∧ (∀ r' ∈ db', r'.id = entry.ID → r'.updatedAt = now)
      ∧ (∀ r ∈ db, ∀ r' ∈ db', r.id = entry.ID → r'.id = entry.ID →
          r.updatedAt < now → r.updatedAt < r'.updatedAt))
    ∧ ((∀ r ∈ db, r.id ≠ entry.ID) → entry.ID ≠ "" → entry.Name ≠ "" →
        entry.Password ≠ "" → keyOk key = true →
        UpdateEntry E db (some entry) key now n1 n2
          = .error ("entry with ID " ++ entry.ID ++ " not found")) := by
  constructor
  · intro db' e' h
    obtain ⟨he, hcreated, hupd, _⟩ := updateEntry_ok_shape E db entry key now n1 n2 db' e' h
    refine ⟨?_, hcreated, ?_, ?_⟩
    · rw [he]
      exact (prepareUpdateEntry_fields entry now).2.2.1
    · intro r' hr' hid
      exact (hupd r' hr' hid).1
    · intro r _ r' hr' _ hid' hlt
      rw [(hupd r' hr' hid').1]
      exact hlt
  · intro hnone hid hname hpass hkey
    exact updateEntry_notfound E db entry key now n1 n2 hid hname hpass hkey hnone

/-- A stored row for the C8 witness. -/
def rowC8 : EntryRow :=
  { id := "x1", name := "old", category := "general", encryptedData := [3],
    encryptedSearch := [4], createdAt := 3, updatedAt := 4,
    encryptionNonce := [], searchNonce := [] }

/-- The update applied in the C8 witness. -/
def entryC8 : Entry :=
  { ID := "x1", Name := "new", Category := "dev", Username := "", Password := "p",
    URL := "", Notes := "", Tags := [], CreatedAt := 3, UpdatedAt := 4 }

/-- The concrete C8 witness run. -/
def resC8 : Except String (List EntryRow × Entry) :=
  UpdateEntry Ew [rowC8] (some entryC8) (some (List.replicate 32 0)) 9
    (List.replicate 12 0) (List.replicate 12 1)

/-- The table produced by the C8 witness run. -/
def dbC8 : List EntryRow :=
  match resC8 with
  | .ok (d, _) => d
  | .error _ => []

/-- The entry returned by the C8 witness run. -/
def entC8 : Entry :=
  match resC8 with
  | .ok (_, e) => e
  | .error _ => entryC8

/-- The updated row of the C8 witness run. -/
def rowC8u : EntryRow := dbC8.headD rowC8

set_option maxRecDepth 40000 in
/-- Witness for C8: the concrete update keeps created at 3, moves updated
from 4 to 9, and updating against an empty table yields the not-found
error. -/
theorem updateEntry_spec_witness :
    entC8.CreatedAt = entryC8.CreatedAt
    ∧ dbC8.map (fun r => (r.id, r.createdAt)) = [rowC8].map (fun r => (r.id, r.createdAt))
    ∧ rowC8u.updatedAt = 9
    ∧ UpdateEntry Ew [] (some entryC8) (some (List.replicate 32 0)) 9
        (List.replicate 12 0) (List.replicate 12 1)
      = .error ("entry with ID " ++ entryC8.ID ++ " not found") :=
  ⟨((updateEntry_spec Ew [rowC8] entryC8 (some (List.replicate 32 0)) 9
      (List.replicate 12 0) (List.replicate 12 1)).1 dbC8 entC8 (by decide)).1,
   ((updateEntry_spec Ew [rowC8] entryC8 (some (List.replicate 32 0)) 9
      (List.replicate 12 0) (List.replicate 12 1)).1 dbC8 entC8 (by decide)).2.1,
   ((updateEntry_spec Ew [rowC8] entryC8 (some (List.replicate 32 0)) 9
      (List.replicate 12 0) (List.replicate 12 1)).1 dbC8 entC8 (by decide)).2.2.1
     rowC8u (by decide) (by decide),
   (updateEntry_spec Ew [] entryC8 (some (List.replicate 32 0)) 9
      (List.replicate 12 0) (List.replicate 12 1)).2 (by simp) (by decide) (by decide)
     (by decide) (by decide)⟩

/-- C10: both CreateEntry and UpdateEntry replace an empty caller category
with "general", and both preserve the table invariant that every stored row
has a non-empty category (the new or patched row gets either "general" or
the caller's non-empty category). -/
theorem category_default_invariant (E : List Nat → List Nat → List Nat) :
    (∀ db entry key freshId now n1 n2 db' e',
        CreateEntry E db (some entry) key freshId now n1 n2 = .ok (db', e') →
        entry.Category = "" → e'.Category = "general")
    ∧ (∀ db entry key now n1 n2 db' e',
        UpdateEntry E db (some entry) key now n1 n2 = .ok (db', e') →
        entry.Category = "" → e'.Category = "general")
    ∧ (∀ db entry key freshId now n1 n2 db' e',
        (∀ r ∈ db, r.category ≠ "") →
        CreateEntry E db (some entry) key freshId now n1 n2 = .ok (db', e') →
        ∀ r' ∈ db', r'.category ≠ "")
    ∧ (∀ db entry key now n1 n2 db' e',
        (∀ r ∈ db, r.category ≠ "") →
        UpdateEntry E db (some entry) key now n1 n2 = .ok (db', e') →
        ∀ r' ∈ db', r'.category ≠ "") := by
  refine ⟨?_, ?_, ?_, ?_⟩
  · intro db entry key freshId now n1 n2 db' e' h hcat
    rw [(createEntry_ok_shape E db entry key freshId now n1 n2 db' e' h).1,
      (prepareCreateEntry_fields entry freshId now).2.2.2, if_pos hcat]
  · intro db entry key now n1 n2 db' e' h hcat
    rw [(updateEntry_ok_shape E db entry key now n1 n2 db' e' h).1,
      (prepareUpdateEntry_fields entry now).2.2.2.2, if_pos hcat]
  · intro db entry key freshId now n1 n2 db' e' hinv h r' hr'
    obtain ⟨he, hdb⟩ := createEntry_ok_shape E db entry key freshId now n1 n2 db' e' h
    have hmem := List.mem_map_of_mem
      (fun r => (r.id, r.category, r.createdAt, r.updatedAt)) hr'
    rw [hdb] at hmem
    rcases List.mem_append.mp hmem with hm | hm
    · rcases List.mem_map.mp hm with ⟨r, hr, heq⟩
      have hceq : r.category = r'.category := by
        have := congrArg (fun x : String × String × Nat × Nat => x.2.1) heq
        simpa using this
      rw [← hceq]
      exact hinv r hr
    · simp only [List.mem_singleton, Prod.mk.injEq] at hm
      rw [hm.2.1, he, (prepareCreateEntry_fields entry freshId now).2.2.2]
      split_ifs with hc
      · decide
      · exact hc
  · intro db entry key now n1 n2 db' e' hinv h r' hr'
    obtain ⟨he, _, hupd, hold⟩ := updateEntry_ok_shape E db entry key now n1 n2 db' e' h
    by_cases hid : r'.id = entry.ID
    · rw [(hupd r' hr' hid).2, he, (prepareUpdateEntry_fields entry now).2.2.2.2]
      split_ifs with hc
      · decide
      · exact hc
    · exact hinv r' (hold r' hr' hid)

/-- An entry with an empty category, for the C10 witness. -/
def entryC10 : Entry :=
  { ID := "", Name := "n10", Category := "", Username := "", Password := "p",
    URL := "", Notes := "", Tags := [], CreatedAt := 0, UpdatedAt := 0 }

/-- The concrete C10 create run. -/
def resC10c : Except String (List EntryRow × Entry) :=
  CreateEntry Ew [] (some entryC10) (some (List.replicate 32 0)) "id10" 1
    (List.replicate 12 0) (List.replicate 12 1)

/-- The table produced by the C10 create run. -/
def dbC10c : List EntryRow :=
  match resC10c with
  | .ok (d, _) => d
  | .error _ => []

/-- The entry returned by the C10 create run. -/
def entC10c : Entry :=
  match resC10c with
  | .ok (_, e) => e
  | .error _ => entryC10

/-- The row inserted by the C10 create run. -/
def rowC10c : EntryRow := dbC10c.headD rowC8

/-- The empty-category update applied in the C10 witness. -/
def entryC10u : Entry :=
  { ID := "x1", Name := "n10", Category := "", Username := "", Password := "p",
    URL := "", Notes := "", Tags := [], CreatedAt := 0, UpdatedAt := 0 }

/-- The concrete C10 update run, against the C8 witness row. -/
def resC10u : Except String (List EntryRow × Entry) :=
  UpdateEntry Ew [rowC8] (some entryC10u) (some (List.replicate 32 0)) 9
    (List.replicate 12 0) (List.replicate 12 1)

/-- The entry returned by the C10 update run. -/
def entC10u : Entry :=
  match resC10u with
  | .ok (_, e) => e
  | .error _ => entryC10u

set_option maxRecDepth 40000 in
/-- Witness for C10: a concrete empty-category create and update both
persist the category "general", and the inserted row's category is
non-empty. -/
theorem category_default_invariant_witness :
    entC10c.Category = "general"
    ∧ entC10u.Category = "general"
    ∧ rowC10c.category ≠ "" :=
  ⟨(category_default_invariant Ew).1 [] entryC10 (some (List.replicate 32 0)) "id10" 1
      (List.replicate 12 0) (List.replicate 12 1) dbC10c entC10c (by decide) rfl,
   (category_default_invariant Ew).2.1 [rowC8] entryC10u (some (List.replicate 32 0)) 9
      (List.replicate 12 0) (List.replicate 12 1)
      (match resC10u with | .ok (d, _) => d | .error _ => []) entC10u (by decide) rfl,
   (category_default_invariant Ew).2.2.1 [] entryC10 (some (List.replicate 32 0)) "id10" 1
      (List.replicate 12 0) (List.replicate 12 1) dbC10c entC10c (by simp) (by decide)
      rowC10c (by decide)⟩
